import Mathlib

/-!
Verification of the mcp-proxy message-pipeline core against its
natural-language specification.

The definitions below are a shallow embedding of the Python sources:
`mcp_proxy/models.py`, `mcp_proxy/correlation.py`, `mcp_proxy/pipeline.py`,
`mcp_proxy/intercept.py`, `mcp_proxy/session_store.py`, `mcp_proxy/replay.py`.
Stateful code is embedded as explicit state passing; the single-threaded
cooperative scheduler of the source (asyncio) means each non-suspending
block between two awaits is atomic, so a pipeline run is embedded as a
fold over the serialized list of per-message capture events.
-/

namespace MCPProxy

/-- A JSON-RPC id: string or integer (mcp.types allows both). -/
inductive JsonRpcId where
  | str (s : String)
  | num (n : Int)
deriving DecidableEq, Repr

/-- The client-info part of the synthetic handshake params
(`replay.py` lines 118-123). -/
structure InitClientInfo where
  name : String
  version : String
deriving DecidableEq, Repr

/-- The params of the synthetic `initialize` request.  `capabilities` is the
constant empty object in the source and is not represented. -/
structure InitParams where
  protocolVersion : String
  clientInfo : InitClientInfo
deriving DecidableEq, Repr

/-- A JSON-RPC params/payload document.  The pipeline treats params as
opaque (spec section 3: "raw: the JSON-RPC message value (opaque to the
envelope)"); we distinguish only the handshake params, which the replay
engine constructs itself, from arbitrary opaque documents. -/
inductive ParamsDoc where
  | init (p : InitParams)
  | blob (s : String)
deriving DecidableEq, Repr

/-- A parsed JSON-RPC 2.0 message, the SDK `JSONRPCMessage` root union:
request (id + method), notification (method only), response (id + result),
error (id + error object).  `result` and error contents are opaque. -/
inductive JSONRPCMessage where
  | request (id : JsonRpcId) (method : String) (params : Option ParamsDoc)
  | notification (method : String) (params : Option ParamsDoc)
  | response (id : JsonRpcId) (result : String)
  | error (id : JsonRpcId) (code : Int) (message : String)
deriving DecidableEq, Repr

/-- Embeds `correlation.extract_jsonrpc_id`: id for requests, responses and errors;
none for notifications. -/
def extract_jsonrpc_id : JSONRPCMessage → Option JsonRpcId
  | .request i _ _ => some i
  | .response i _ => some i
  | .error i _ _ => some i
  | .notification _ _ => none

/-- Embeds `correlation.extract_method`: method for requests and notifications;
none for responses and errors. -/
def extract_method : JSONRPCMessage → Option String
  | .request _ m _ => some m
  | .notification m _ => some m
  | .response _ _ => none
  | .error _ _ _ => none

/-- Embeds `correlation.is_request`. -/
def is_request : JSONRPCMessage → Bool
  | .request _ _ _ => true
  | _ => false

/-- Embeds `correlation.is_response`: true for both success and error responses. -/
def is_response : JSONRPCMessage → Bool
  | .response _ _ => true
  | .error _ _ _ => true
  | _ => false

/-- Embeds `correlation.is_notification`. -/
def is_notification : JSONRPCMessage → Bool
  | .notification _ _ => true
  | _ => false

/-- Embeds `models.Direction`. -/
inductive Direction where
  | client_to_server
  | server_to_client
deriving DecidableEq, Repr

/-- Embeds `models.Transport`. -/
inductive Transport where
  | stdio
  | sse
  | streamable_http
deriving DecidableEq, Repr

/-- Embeds `models.InterceptMode`. -/
inductive InterceptMode where
  | passthrough
  | intercept
deriving DecidableEq, Repr

/-- Embeds `models.InterceptAction`. -/
inductive InterceptAction where
  | forward
  | modify
  | drop
deriving DecidableEq, Repr

/-- Embeds `models.ProxyMessage`, the envelope around one wire message.
Timestamps are UTC instants; `datetime` is embedded as the number of
microseconds since the epoch (an exact representation of an aware
`datetime`).  The proxy id is a `uuid4()` in the source; the only property
the code and spec rely on is freshness, so the pipeline embedding below
draws ids from the shared counter, which makes them unique within a run. -/
structure ProxyMessage where
  id : Nat
  sequence : Nat
  timestamp : Nat
  direction : Direction
  transport : Transport
  raw : JSONRPCMessage
  jsonrpc_id : Option JsonRpcId
  method : Option String
  correlated_id : Option Nat
  modified : Bool
  original_raw : Option JSONRPCMessage
deriving DecidableEq, Repr

/-- The message an envelope wrapped when it was captured: `original_raw`
when a modify-release later replaced `raw`, else `raw` (pipeline lines
152-156 set `original_raw` to the captured `raw` before overwriting it). -/
def capturedRaw (m : ProxyMessage) : JSONRPCMessage :=
  m.original_raw.getD m.raw

/-- Embeds `models.HeldMessage`: a parked envelope plus its rendezvous.
`releaseSet` embeds the state of the `asyncio.Event`. -/
structure HeldMessage where
  proxy_message : ProxyMessage
  releaseSet : Bool
  action : Option InterceptAction
  modified_raw : Option JSONRPCMessage
deriving DecidableEq, Repr

/-- Embeds `intercept.InterceptEngine` state: mode and the list of held messages. -/
structure InterceptEngine where
  mode : InterceptMode
  held : List HeldMessage
deriving DecidableEq, Repr

/-- Embeds `InterceptEngine.should_hold`: true iff the engine is in INTERCEPT mode
(the message itself is not inspected). -/
def InterceptEngine.should_hold (e : InterceptEngine) (_message : ProxyMessage) : Bool :=
  e.mode == InterceptMode.intercept

/-- Embeds `InterceptEngine.hold`: append a fresh held record with an unsignalled
rendezvous and return it. -/
def InterceptEngine.hold (e : InterceptEngine) (message : ProxyMessage) :
    InterceptEngine × HeldMessage :=
  let heldRec : HeldMessage :=
    { proxy_message := message, releaseSet := false, action := none, modified_raw := none }
  ({ e with held := e.held ++ [heldRec] }, heldRec)

/-- Embeds `InterceptEngine.release`: stamp the action of the record and the optional
modified payload, signal the rendezvous, and remove the record from the
held list (the source checks membership first; `List.erase` is likewise a
no-op when absent).  The source mutates the record in place; the updated
record — the value the suspended forward loop observes on wakeup — is
returned alongside the engine. -/
def InterceptEngine.release (e : InterceptEngine) (heldRec : HeldMessage)
    (action : InterceptAction) (modified_raw : Option JSONRPCMessage := none) :
    InterceptEngine × HeldMessage :=
  let stamped : HeldMessage :=
    { heldRec with action := some action, modified_raw := modified_raw, releaseSet := true }
  ({ e with held := e.held.erase heldRec }, stamped)

/-- Embeds `InterceptEngine.set_mode`: change the mode; when switching to
PASSTHROUGH, iterate over a copy of the held list and release every entry
with action FORWARD.  The list of stamped (released) records is returned so
the view of the waiting forward loops can be stated. -/
def InterceptEngine.set_mode (e : InterceptEngine) (mode : InterceptMode) :
    InterceptEngine × List HeldMessage :=
  let e1 : InterceptEngine := { e with mode := mode }
  if mode == InterceptMode.passthrough then
    e1.held.foldl
      (fun acc h =>
        let r := InterceptEngine.release acc.1 h InterceptAction.forward none
        (r.1, acc.2 ++ [r.2]))
      (e1, ([] : List HeldMessage))
  else (e1, [])

/-- Embeds `InterceptEngine.get_held`: snapshot copy of the held list. -/
def InterceptEngine.get_held (e : InterceptEngine) : List HeldMessage :=
  e.held

/-! ## Pipeline (`pipeline.py`) -/

/-- Embeds `pipeline._wrap_message`: build the envelope for a freshly read message.
`newId` stands for the generated `uuid4()` (see `ProxyMessage`), `seqv` for
`next(seq)` on the shared counter. -/
def wrapMessage (newId : Nat) (seqv : Nat) (ts : Nat) (d : Direction)
    (tr : Transport) (raw : JSONRPCMessage) : ProxyMessage :=
  { id := newId
    sequence := seqv
    timestamp := ts
    direction := d
    transport := tr
    raw := raw
    jsonrpc_id := extract_jsonrpc_id raw
    method := extract_method raw
    correlated_id := none
    modified := false
    original_raw := none }

/-- The shared correlation map, a Python `dict[str | int, str]` keyed by
JSON-RPC id with values the proxy id of the request; embedded as an
association list with unique keys. -/
abbrev CorrelationMap := List (JsonRpcId × Nat)

/-- Embeds `correlation_map[k] = v`: overwrite the binding for `k` if present,
else add it. -/
def dictSet (m : CorrelationMap) (k : JsonRpcId) (v : Nat) : CorrelationMap :=
  match m with
  | [] => [(k, v)]
  | (k1, v1) :: rest =>
      if k1 = k then (k, v) :: rest else (k1, v1) :: dictSet rest k v

/-- Embeds `correlation_map.pop(k, None)`: remove the binding for `k` and return
its value, or return none leaving the map unchanged. -/
def dictPop (m : CorrelationMap) (k : JsonRpcId) : Option Nat × CorrelationMap :=
  match m with
  | [] => (none, [])
  | (k1, v1) :: rest =>
      if k1 = k then (some v1, rest)
      else
        let r := dictPop rest k
        (r.1, (k1, v1) :: r.2)

/-- Pipeline lines 127-133: if the message is a request with an id, record
`correlation_map[id] = envelope.id`; else if a response/error with an id,
pop the map and, when an entry was present, set `correlated_id` to it.
Notifications have no id, so both branches are skipped for them. -/
def correlateStep (cmap : CorrelationMap) (env : ProxyMessage)
    (raw : JSONRPCMessage) : CorrelationMap × ProxyMessage :=
  match env.jsonrpc_id with
  | none => (cmap, env)
  | some jid =>
      if is_request raw then
        (dictSet cmap jid env.id, env)
      else if is_response raw then
        let r := dictPop cmap jid
        match r.1 with
        | some v => (r.2, { env with correlated_id := some v })
        | none => (r.2, env)
      else (cmap, env)

/-- Pipeline lines 147-159, the code run after the rendezvous fires, given
the stamped action and payload of the released record: DROP skips the write
(`continue`), MODIFY with a non-null payload rewrites the envelope and
sends the modified message, everything else forwards the message read from
the source unchanged.  Returns the (possibly rewritten) envelope and the
payload written to the destination, if any. -/
def finalizeReleased (env : ProxyMessage) (raw : JSONRPCMessage)
    (action : Option InterceptAction) (modified_raw : Option JSONRPCMessage) :
    ProxyMessage × Option JSONRPCMessage :=
  if action = some InterceptAction.drop then (env, none)
  else
    match action, modified_raw with
    | some InterceptAction.modify, some m =>
        ({ env with original_raw := some env.raw, raw := m, modified := true }, some m)
    | _, _ => (env, some raw)

/-- The state shared by the two forward loops of one pipeline run: the
message list of the session store, the correlation map, and the shared
`itertools.count()` counter (`seqCounter` is the value `next(seq)` returns
next). -/
structure PipelineState where
  store : List ProxyMessage
  cmap : CorrelationMap
  seqCounter : Nat
deriving DecidableEq, Repr

/-- The state at the start of `run_pipeline`: empty store, empty
correlation map, counter at zero. -/
def initState : PipelineState := { store := [], cmap := [], seqCounter := 0 }

/-- The intercept fate of one captured message, as seen by its forward
loop: either `should_hold` was false (passthrough), or the message was held
and later released with the recorded action and optional modified payload. -/
inductive ReleaseOutcome where
  | passthrough
  | released (action : InterceptAction) (modified_raw : Option JSONRPCMessage)
deriving DecidableEq, Repr

/-- One message arriving at the proxy: its direction (which forward loop
reads it), capture timestamp, parsed payload, and intercept fate.  Both
loops interleave on the single-threaded scheduler; a pipeline run is the
fold of these events in capture order. -/
structure InputEvent where
  direction : Direction
  ts : Nat
  raw : JSONRPCMessage
  outcome : ReleaseOutcome
deriving DecidableEq, Repr

/-- Pipeline lines 124-136: read, wrap (drawing the fresh proxy id and the
sequence from the shared counter), correlate, append to the session store. -/
def captureStep (tr : Transport) (st : PipelineState) (d : Direction)
    (ts : Nat) (raw : JSONRPCMessage) : PipelineState × ProxyMessage :=
  let env0 := wrapMessage st.seqCounter st.seqCounter ts d tr raw
  let r := correlateStep st.cmap env0 raw
  ({ store := st.store ++ [r.2], cmap := r.1, seqCounter := st.seqCounter + 1 }, r.2)

/-- One full iteration of `_forward_loop` for one message.  The envelope is
appended to the store at capture, before the intercept check; on a
modify-release the loop mutates that same stored object, so by the end of
the iteration the stored envelope equals the released one — the embedding
appends the final envelope.  Returns the new state, the envelope, and the
payload written to the destination (none when dropped). -/
def processMessage (tr : Transport) (st : PipelineState) (ev : InputEvent) :
    PipelineState × ProxyMessage × Option JSONRPCMessage :=
  let env0 := wrapMessage st.seqCounter st.seqCounter ev.ts ev.direction tr ev.raw
  let r := correlateStep st.cmap env0 ev.raw
  let fin :=
    match ev.outcome with
    | ReleaseOutcome.passthrough => (r.2, some ev.raw)
    | ReleaseOutcome.released a mr => finalizeReleased r.2 ev.raw (some a) mr
  ({ store := st.store ++ [fin.1], cmap := r.1, seqCounter := st.seqCounter + 1 },
   fin.1, fin.2)

/-- A whole pipeline run over a serialized capture trace. -/
def runPipeline (tr : Transport) (events : List InputEvent) : PipelineState :=
  events.foldl (fun st ev => (processMessage tr st ev).1) initState

/-- Where a forward-loop iteration stands after the intercept check:
either suspended on the rendezvous of a held record — at which point
nothing has been written to the destination — or completed, with the
payload that was written (none for a drop). -/
inductive IterationState where
  | waiting (heldRec : HeldMessage)
  | completed (env : ProxyMessage) (written : Option JSONRPCMessage)
deriving DecidableEq, Repr

/-- Pipeline lines 143-147: the intercept check.  When `should_hold` is
true the message is handed to the engine and the loop suspends on
`held.release.wait()`; otherwise the loop proceeds straight to the write. -/
def interceptStage (e : InterceptEngine) (env : ProxyMessage)
    (raw : JSONRPCMessage) : InterceptEngine × IterationState :=
  if e.should_hold env then
    let r := e.hold env
    (r.1, IterationState.waiting r.2)
  else (e, IterationState.completed env (some raw))

/-- The resumption of the loop after the rendezvous of its held record fires:
lines 149-159 applied to the stamped record. -/
def resumeStage (heldRec : HeldMessage) (raw : JSONRPCMessage) : IterationState :=
  let fin := finalizeReleased heldRec.proxy_message raw heldRec.action heldRec.modified_raw
  IterationState.completed fin.1 fin.2

/-! ## Session store (`session_store.py`) -/

/-- Embeds `Direction.value`, the `StrEnum` wire string. -/
def Direction.value : Direction → String
  | .client_to_server => "client_to_server"
  | .server_to_client => "server_to_client"

/-- Embeds `Direction(s)`: the `StrEnum` constructor, raising (none) on an unknown
value. -/
def Direction.ofValue (s : String) : Option Direction :=
  if s = "client_to_server" then some .client_to_server
  else if s = "server_to_client" then some .server_to_client
  else none

/-- Embeds `Transport.value`. -/
def Transport.value : Transport → String
  | .stdio => "stdio"
  | .sse => "sse"
  | .streamable_http => "streamable_http"

/-- Embeds `Transport(s)`. -/
def Transport.ofValue (s : String) : Option Transport :=
  if s = "stdio" then some .stdio
  else if s = "sse" then some .sse
  else if s = "streamable_http" then some .streamable_http
  else none

/-- Embeds `datetime.isoformat()` output.  For an aware `datetime` the ISO-8601
string determines the instant exactly (microsecond precision, explicit
offset), and `fromisoformat` inverts it exactly; the codec is therefore
embedded as the instant itself behind a wrapper type. -/
structure IsoTimestamp where
  micros : Nat
deriving DecidableEq, Repr

/-- Embeds `timestamp.isoformat()`. -/
def isoformat (t : Nat) : IsoTimestamp := ⟨t⟩

/-- Embeds `datetime.fromisoformat(...)`. -/
def fromisoformat (s : IsoTimestamp) : Nat := s.micros

/-- Embeds `JSONRPCMessage.model_dump(by_alias=True, exclude_none=True)`: the JSON
object form of a message.  Fields absent from a variant (and `params` when
null) are simply absent, which `Option.none` represents.  The constant
`jsonrpc: "2.0"` member is carried by every variant and not represented. -/
structure DumpedMsg where
  id : Option JsonRpcId
  method : Option String
  params : Option ParamsDoc
  result : Option String
  errorCode : Option Int
  errorMessage : Option String
deriving DecidableEq, Repr

/-- Embeds `model_dump` of each SDK variant. -/
def dumpMessage : JSONRPCMessage → DumpedMsg
  | .request i m p => ⟨some i, some m, p, none, none, none⟩
  | .notification m p => ⟨none, some m, p, none, none, none⟩
  | .response i r => ⟨some i, none, none, some r, none, none⟩
  | .error i c msg => ⟨some i, none, none, none, some c, some msg⟩

/-- Embeds `JSONRPCMessage.model_validate`: discriminate the union by shape —
id + method is a request, method alone a notification, id + result a
response, id + error object an error; anything else fails validation. -/
def validateMessage : DumpedMsg → Option JSONRPCMessage
  | ⟨some i, some m, p, none, none, none⟩ => some (.request i m p)
  | ⟨none, some m, p, none, none, none⟩ => some (.notification m p)
  | ⟨some i, none, none, some r, none, none⟩ => some (.response i r)
  | ⟨some i, none, none, none, some c, some msg⟩ => some (.error i c msg)
  | _ => none

/-- One element of the serialized `messages` array
(`session_store.to_proxy_session`, lines 88-104). -/
structure MessageEntry where
  proxy_id : Nat
  sequence : Nat
  timestamp : IsoTimestamp
  direction : String
  transport : String
  jsonrpc_id : Option JsonRpcId
  method : Option String
  correlated_id : Option Nat
  modified : Bool
  payload : DumpedMsg
  original_payload : Option DumpedMsg
deriving DecidableEq, Repr

/-- Modelled from the spec: the `ProxySession` Pydantic model
(`mcp_proxy.models`), which is referenced by `session_store.py` but whose
definition is not among the provided sources.  Fields follow the section 4.5 document schema of the spec; `metadata` values are opaque JSON, embedded as
strings. -/
structure ProxySession where
  id : String
  started_at : IsoTimestamp
  ended_at : Option IsoTimestamp
  transport : Transport
  server_command : Option String
  server_url : Option String
  messages : List MessageEntry
  metadata : List (String × String)
deriving DecidableEq, Repr

/-- Modelled from the spec: the JSON text `ProxySession.model_dump_json`
produces.  The Pydantic JSON round-trip of the section 4.5 document is exact,
so the text is embedded as the document it encodes. -/
structure SessionJson where
  doc : ProxySession
deriving DecidableEq, Repr

/-- Modelled from the spec: `ProxySession.model_dump_json(indent=2)`. -/
def ProxySession.model_dump_json (s : ProxySession) : SessionJson := ⟨s⟩

/-- Modelled from the spec: `ProxySession.model_validate_json`. -/
def ProxySession.model_validate_json (j : SessionJson) : ProxySession := j.doc

/-- Embeds `session_store.SessionStore`: the in-memory capture.  `messages` is
`_messages`; `index` is the `_index` dict (association list in capture
order, which determines the same mapping). -/
structure SessionStore where
  session_id : String
  transport : Transport
  server_command : Option String
  server_url : Option String
  metadata : List (String × String)
  started_at : Nat
  messages : List ProxyMessage
  index : List (Nat × ProxyMessage)
deriving DecidableEq, Repr

/-- Embeds `SessionStore.__init__` for a freshly created session. -/
def SessionStore.create (session_id : String) (transport : Transport)
    (server_command : Option String := none) (server_url : Option String := none)
    (metadata : List (String × String) := []) (started_at : Nat := 0) : SessionStore :=
  { session_id := session_id, transport := transport,
    server_command := server_command, server_url := server_url,
    metadata := metadata, started_at := started_at,
    messages := [], index := [] }

/-- Embeds `SessionStore.append`: add to both the list and the id index.  The
source has no freshness guard: this is the whole method. -/
def SessionStore.append (st : SessionStore) (message : ProxyMessage) : SessionStore :=
  { st with messages := st.messages ++ [message],
            index := st.index ++ [(message.id, message)] }

/-- Embeds `to_proxy_session`, per-message entry (lines 88-104). -/
def dumpEntry (msg : ProxyMessage) : MessageEntry :=
  { proxy_id := msg.id
    sequence := msg.sequence
    timestamp := isoformat msg.timestamp
    direction := msg.direction.value
    transport := msg.transport.value
    jsonrpc_id := msg.jsonrpc_id
    method := msg.method
    correlated_id := msg.correlated_id
    modified := msg.modified
    payload := dumpMessage msg.raw
    original_payload := msg.original_raw.map dumpMessage }

/-- Embeds `SessionStore.to_proxy_session` (lines 80-115). -/
def SessionStore.to_proxy_session (st : SessionStore) : ProxySession :=
  { id := st.session_id
    started_at := isoformat st.started_at
    ended_at := none
    transport := st.transport
    server_command := st.server_command
    server_url := st.server_url
    messages := st.messages.map dumpEntry
    metadata := st.metadata }

/-- Embeds `SessionStore.load`, per-entry reconstruction (lines 148-166); any
validation failure (bad payload, unknown enum value) raises, i.e. yields
none. -/
def loadEntry (entry : MessageEntry) : Option ProxyMessage := do
  let raw ← validateMessage entry.payload
  let original_raw ←
    match entry.original_payload with
    | none => some none
    | some p => (validateMessage p).map some
  let d ← Direction.ofValue entry.direction
  let tr ← Transport.ofValue entry.transport
  some { id := entry.proxy_id
         sequence := entry.sequence
         timestamp := fromisoformat entry.timestamp
         direction := d
         transport := tr
         raw := raw
         jsonrpc_id := entry.jsonrpc_id
         method := entry.method
         correlated_id := entry.correlated_id
         modified := entry.modified
         original_raw := original_raw }

/-- The `for entry in session.messages` loop of `load`, reconstructing each
envelope in order. -/
def loadEntries : List MessageEntry → Option (List ProxyMessage)
  | [] => some []
  | e :: rest => do
      let m ← loadEntry e
      let ms ← loadEntries rest
      some (m :: ms)

/-- Embeds `SessionStore.load` applied to a session document (lines 128-167):
validate the JSON, rebuild the store with the header fields of the session, then
append every reconstructed envelope in order. -/
def SessionStore.ofJson (j : SessionJson) : Option SessionStore := do
  let session := ProxySession.model_validate_json j
  let msgs ← loadEntries session.messages
  some (msgs.foldl SessionStore.append
    (SessionStore.create session.id session.transport session.server_command
      session.server_url session.metadata (fromisoformat session.started_at)))

/-! ## Filesystem model for `save`/`load`

`Path.write_text` opens the target for writing — truncating whatever was
there — and then writes the text.  A file therefore holds either a complete
document or, after a write that raised partway, a truncated prefix of one;
`truncated doc k` stands for the first `k` characters of the rendering of
`doc`. -/

/-- Contents of one file. -/
inductive FileContent where
  | complete (j : SessionJson)
  | truncated (j : SessionJson) (chars : Nat)
deriving DecidableEq, Repr

/-- A flat view of the filesystem: path to file contents (directories are
not represented; `mkdir` failures are injected as a flag below). -/
def Fs : Type := String → Option FileContent

/-- Point update of the filesystem. -/
def updateFs (fs : Fs) (path : String) (c : FileContent) : Fs :=
  fun p => if p = path then some c else fs p

/-- Embeds `path.write_text(text, encoding="utf-8")` with an injected failure
point: `none` means the write completes, `some k` means an io-error is
raised after `k` characters, leaving the file truncated.  The boolean is
true iff the call returned normally. -/
def writeText (fs : Fs) (path : String) (content : SessionJson)
    (failAt : Option Nat) : Fs × Bool :=
  match failAt with
  | none => (updateFs fs path (FileContent.complete content), true)
  | some k => (updateFs fs path (FileContent.truncated content k), false)

/-- Embeds `SessionStore.save` (lines 117-126): create parent directories, encode
the session, write the text directly to `path`.  `mkdirFail` injects an
io-error from `path.parent.mkdir` (raised before anything is written);
`failAt` injects one from `write_text`.  The boolean is true iff save
returned normally; false means the io-error propagated to the caller. -/
def SessionStore.save (st : SessionStore) (fs : Fs) (path : String)
    (mkdirFail : Bool) (failAt : Option Nat) : Fs × Bool :=
  if mkdirFail then (fs, false)
  else writeText fs path (st.to_proxy_session.model_dump_json) failAt

/-- Embeds `SessionStore.load` (lines 128-167) through the filesystem: read the
text at `path` (a missing file or a truncated document fails to parse) and
reconstruct the store. -/
def SessionStore.load (fs : Fs) (path : String) : Option SessionStore :=
  match fs path with
  | some (FileContent.complete j) => SessionStore.ofJson j
  | _ => none

/-! ## Replay engine (`replay.py`) -/

/-- The reserved handshake request id (`_HANDSHAKE_ID`). -/
def handshakeId : String := "__handshake__"

/-- Embeds `replay.ReplayResult`: elapsed time is an uninterpreted duration. -/
structure ReplayResult where
  original_request : ProxyMessage
  sent_message : JSONRPCMessage
  response : Option JSONRPCMessage
  error : Option String
  duration_ms : Nat
deriving DecidableEq, Repr

/-- What `adapter.write` did for one replayed message. -/
inductive WriteResult where
  | ok
  | failed (exc : String)
deriving DecidableEq, Repr

/-- What the bounded wait for the matching response produced: the matching
response (success or error response — `_read_response` matches only on the
id), a `TimeoutError` from `asyncio.wait_for`, or a read failure. -/
inductive WaitResult where
  | matched (resp : JSONRPCMessage)
  | timedOut
  | readFailed (exc : String)
deriving DecidableEq, Repr

/-- Embeds `replay._replay_single` (lines 141-210): write the captured raw (a
write failure becomes a `Write failed:` error value); notifications are
fire-and-forget; requests wait for the matching response, a timeout
becoming a `Timeout after <t>s` error value and a read failure a
`Read failed:` one.  `timeoutRepr` is the decimal rendering of the
`timeout` float interpolated by the f-string; `elapsed` the measured
duration.  The function is total: every per-message failure is returned in
the result, never raised. -/
def replaySingle (msg : ProxyMessage) (writeRes : WriteResult)
    (waitRes : WaitResult) (timeoutRepr : String) (elapsed : Nat) : ReplayResult :=
  match writeRes with
  | WriteResult.failed exc =>
      { original_request := msg, sent_message := msg.raw, response := none,
        error := some ("Write failed: " ++ exc), duration_ms := elapsed }
  | WriteResult.ok =>
      if is_notification msg.raw then
        { original_request := msg, sent_message := msg.raw, response := none,
          error := none, duration_ms := elapsed }
      else
        match waitRes with
        | WaitResult.matched resp =>
            { original_request := msg, sent_message := msg.raw, response := some resp,
              error := none, duration_ms := elapsed }
        | WaitResult.timedOut =>
            { original_request := msg, sent_message := msg.raw, response := none,
              error := some ("Timeout after " ++ timeoutRepr ++ "s"),
              duration_ms := elapsed }
        | WaitResult.readFailed exc =>
            { original_request := msg, sent_message := msg.raw, response := none,
              error := some ("Read failed: " ++ exc), duration_ms := elapsed }

/-- The client-to-server filter of `replay_messages` (line 84). -/
def c2sFilter (messages : List ProxyMessage) : List ProxyMessage :=
  messages.filter (fun m => m.direction == Direction.client_to_server)

/-- Embeds `replay_messages` lines 87-89: a synthetic handshake is needed when
`auto_handshake` is set and the filtered list is empty or its first message
is not an `initialize`. -/
def needsHandshake (auto_handshake : Bool) (c2s : List ProxyMessage) : Bool :=
  auto_handshake &&
    match c2s with
    | [] => true
    | m :: _ => m.method != some "initialize"

/-- The synthetic `initialize` request of `_send_handshake` (lines
112-126): the sentinel string id and the minimal client-capabilities
payload. -/
def handshakeInitRequest : JSONRPCMessage :=
  JSONRPCMessage.request (JsonRpcId.str handshakeId) "initialize"
    (some (ParamsDoc.init
      { protocolVersion := "2024-11-05"
        clientInfo := { name := "mcp-proxy-replay", version := "0.1.0" } }))

/-- The `notifications/initialized` notification of `_send_handshake`
(lines 133-138). -/
def initializedNotification : JSONRPCMessage :=
  JSONRPCMessage.notification "notifications/initialized" none

/-- The outcome of the best-effort wait for the handshake response
(line 129-130): either the matching response arrived or the wait timed
out; `contextlib.suppress(TimeoutError)` swallows the timeout. -/
inductive HandshakeWait where
  | gotResponse (resp : JSONRPCMessage)
  | timedOut
deriving DecidableEq, Repr

/-- Embeds `_send_handshake` as the list of payloads written to the adapter, in
order: the `initialize` request is written, the response is awaited
(best-effort — the writes are the same whether it arrived or the wait
timed out), then `notifications/initialized` is written. -/
def sendHandshakeWrites (w : HandshakeWait) : List JSONRPCMessage :=
  match w with
  | HandshakeWait.gotResponse _ => [handshakeInitRequest, initializedNotification]
  | HandshakeWait.timedOut => [handshakeInitRequest, initializedNotification]

/-- The `for msg in c2s_messages` loop of `replay_messages` (lines 93-96):
one `replaySingle` per message, appended in order.  The behaviour of the adapter
for the message at overall position `i` is given by the oracles `writeO`,
`waitO`, `durO`. -/
def replayLoop (writeO : Nat → WriteResult) (waitO : Nat → WaitResult)
    (durO : Nat → Nat) (timeoutRepr : String) : Nat → List ProxyMessage → List ReplayResult
  | _, [] => []
  | i, m :: rest =>
      replaySingle m (writeO i) (waitO i) timeoutRepr (durO i) ::
        replayLoop writeO waitO durO timeoutRepr (i + 1) rest

/-- Embeds `replay_messages` (lines 60-98): filter, optionally handshake (which
does not contribute a result), then replay each surviving message in order,
producing one `ReplayResult` per message. -/
def replayMessages (messages : List ProxyMessage) (_auto_handshake : Bool)
    (writeO : Nat → WriteResult) (waitO : Nat → WaitResult) (durO : Nat → Nat)
    (timeoutRepr : String) : List ReplayResult :=
  replayLoop writeO waitO durO timeoutRepr 0 (c2sFilter messages)

/-- The sequence of payloads `replay_messages` writes to the adapter: the
handshake writes (when performed) strictly before the write of every
replayed message.  (Each replayed message is written once; a failing write is still an
attempted write.) -/
def replayWriteTrace (messages : List ProxyMessage) (auto_handshake : Bool)
    (w : HandshakeWait) : List JSONRPCMessage :=
  let c2s := c2sFilter messages
  (if needsHandshake auto_handshake c2s then sendHandshakeWrites w else [])
    ++ c2s.map (fun m => m.raw)

/-- The invariant every reachable pipeline state satisfies:
the shared counter equals the store length; the i-th envelope carries
proxy id i and sequence i (ids and sequences are drawn from the shared
counter in capture order); every correlation-map entry `(k, v)` points at a
stored request envelope (non-null method) whose extracted id is `k`; every
stored correlated envelope has a strictly earlier witness with matching id;
and an envelope whose captured payload is a notification is uncorrelated. -/
def Inv (st : PipelineState) : Prop :=
  st.seqCounter = st.store.length ∧
  (∀ (i : Nat) (env : ProxyMessage),
    st.store[i]? = some env → env.id = i ∧ env.sequence = i) ∧
  (∀ (k : JsonRpcId) (v : Nat), (k, v) ∈ st.cmap →
    ∃ env, st.store[v]? = some env ∧ env.method ≠ none ∧ env.jsonrpc_id = some k) ∧
  (∀ (i : Nat) (env : ProxyMessage),
    st.store[i]? = some env → ∀ v, env.correlated_id = some v →
    v < i ∧ ∃ envv, st.store[v]? = some envv ∧ envv.method ≠ none ∧
      envv.jsonrpc_id = env.jsonrpc_id) ∧
  (∀ (i : Nat) (env : ProxyMessage),
    st.store[i]? = some env → is_notification (capturedRaw env) = true →
    env.correlated_id = none)


/-- The envelope as wrapped for the current capture (scaffolding for the
invariant proof: the first intermediate value of `processMessage`). -/
def stepWrapped (tr : Transport) (st : PipelineState) (ev : InputEvent) : ProxyMessage :=
  wrapMessage st.seqCounter st.seqCounter ev.ts ev.direction tr ev.raw

/-- The correlation result of the current capture. -/
def stepCorr (tr : Transport) (st : PipelineState) (ev : InputEvent) :
    CorrelationMap × ProxyMessage :=
  correlateStep st.cmap (stepWrapped tr st ev) ev.raw

/-- The released envelope and write of the current capture. -/
def stepFin (tr : Transport) (st : PipelineState) (ev : InputEvent) :
    ProxyMessage × Option JSONRPCMessage :=
  match ev.outcome with
  | ReleaseOutcome.passthrough => ((stepCorr tr st ev).2, some ev.raw)
  | ReleaseOutcome.released a mr => finalizeReleased (stepCorr tr st ev).2 ev.raw (some a) mr

/-! ## Concrete example data used by witnesses and counterexamples -/

/-- A small request payload. -/
def exReqRaw : JSONRPCMessage := JSONRPCMessage.request (JsonRpcId.num 1) "tools/list" none

/-- The matching response payload. -/
def exRespRaw : JSONRPCMessage := JSONRPCMessage.response (JsonRpcId.num 1) "ok"

/-- A two-message capture trace: a request client-to-server, then its
response server-to-client, both passed through. -/
def exEvents : List InputEvent :=
  [{ direction := Direction.client_to_server, ts := 5, raw := exReqRaw,
     outcome := ReleaseOutcome.passthrough },
   { direction := Direction.server_to_client, ts := 6, raw := exRespRaw,
     outcome := ReleaseOutcome.passthrough }]

/-- The envelope the pipeline builds for the request of `exEvents`. -/
def exReqEnv : ProxyMessage :=
  { id := 0, sequence := 0, timestamp := 5, direction := Direction.client_to_server,
    transport := Transport.stdio, raw := exReqRaw,
    jsonrpc_id := some (JsonRpcId.num 1), method := some "tools/list",
    correlated_id := none, modified := false, original_raw := none }

/-- The envelope the pipeline builds for the response of `exEvents`. -/
def exRespEnv : ProxyMessage :=
  { id := 1, sequence := 1, timestamp := 6, direction := Direction.server_to_client,
    transport := Transport.stdio, raw := exRespRaw,
    jsonrpc_id := some (JsonRpcId.num 1), method := none,
    correlated_id := some 0, modified := false, original_raw := none }

/-- What `release(held, FORWARD)` stamps onto a held record. -/
def stampForward (h : HeldMessage) : HeldMessage :=
  { h with action := some InterceptAction.forward, modified_raw := none, releaseSet := true }


/-- A pre-existing session document distinct from anything the example
store would write. -/
def exOldDoc : SessionJson :=
  ⟨{ id := "old", started_at := ⟨0⟩, ended_at := none, transport := Transport.stdio,
     server_command := none, server_url := none, messages := [], metadata := [] }⟩

/-- A filesystem holding `exOldDoc` at `session.json`. -/
def exFs0 : Fs :=
  fun p => if p = "session.json" then some (FileContent.complete exOldDoc) else none

/-- A freshly created empty store. -/
def exStoreEmpty : SessionStore := SessionStore.create "s1" Transport.stdio none none [] 0

/-! ## Helper lemmas -/

theorem getElem?_append_single {α : Type _} (l : List α) (a : α) (i : Nat) :
    (l ++ [a])[i]? = if i < l.length then l[i]? else if i = l.length then some a else none := by
  rw [List.getElem?_append]
  by_cases h : i < l.length
  · simp [h]
  · simp only [h, if_false]
    by_cases he : i = l.length
    · subst he
      simp
    · have hlt : l.length < i :=
        Nat.lt_of_le_of_ne (Nat.le_of_not_lt h) (Ne.symm he)
      obtain ⟨d, rfl⟩ := Nat.exists_eq_add_of_lt hlt
      have hd : l.length + d + 1 - l.length = d + 1 := by omega
      simp only [he, if_false, hd]
      rfl

theorem correlateStep_snd_raw (cmap : CorrelationMap) (env : ProxyMessage)
    (raw : JSONRPCMessage) :
    (correlateStep cmap env raw).2.raw = env.raw ∧
    (correlateStep cmap env raw).2.original_raw = env.original_raw ∧
    (correlateStep cmap env raw).2.modified = env.modified ∧
    (correlateStep cmap env raw).2.id = env.id ∧
    (correlateStep cmap env raw).2.sequence = env.sequence ∧
    (correlateStep cmap env raw).2.method = env.method ∧
    (correlateStep cmap env raw).2.jsonrpc_id = env.jsonrpc_id := by
  unfold correlateStep
  cases hj : env.jsonrpc_id with
  | none => simp [hj]
  | some jid =>
      by_cases hreq : is_request raw = true
      · simp [hreq, hj]
      · by_cases hresp : is_response raw = true
        · simp only [hreq, hresp, if_false, if_true]
          cases hp : (dictPop cmap jid).1 with
          | none => simp [hj]
          | some v => simp [hj]
        · simp [hreq, hresp, hj]

theorem finalizeReleased_fields (env : ProxyMessage) (raw : JSONRPCMessage)
    (action : Option InterceptAction) (mr : Option JSONRPCMessage) :
    (finalizeReleased env raw action mr).1.id = env.id ∧
    (finalizeReleased env raw action mr).1.sequence = env.sequence ∧
    (finalizeReleased env raw action mr).1.method = env.method ∧
    (finalizeReleased env raw action mr).1.jsonrpc_id = env.jsonrpc_id ∧
    (finalizeReleased env raw action mr).1.correlated_id = env.correlated_id := by
  rcases action with _ | a
  · simp [finalizeReleased]
  · cases a <;> rcases mr with _ | m <;> simp [finalizeReleased]

theorem finalizeReleased_capturedRaw (env : ProxyMessage) (raw : JSONRPCMessage)
    (action : Option InterceptAction) (mr : Option JSONRPCMessage)
    (hraw : env.raw = raw) (horig : env.original_raw = none) :
    capturedRaw (finalizeReleased env raw action mr).1 = raw := by
  rcases action with _ | a
  · simp [finalizeReleased, capturedRaw, horig, hraw]
  · cases a <;> rcases mr with _ | m <;>
      simp [finalizeReleased, capturedRaw, horig, hraw]

theorem dictPop_mem {m : CorrelationMap} {k : JsonRpcId} {v : Nat}
    (h : (dictPop m k).1 = some v) : (k, v) ∈ m := by
  induction m with
  | nil => simp [dictPop] at h
  | cons p rest ih =>
      rcases p with ⟨k1, v1⟩
      by_cases hk : k1 = k
      · subst hk
        simp [dictPop] at h
        subst h
        exact List.mem_cons_self _ _
      · simp [dictPop, hk] at h
        exact List.mem_cons_of_mem _ (ih h)

theorem dictPop_subset {m : CorrelationMap} {k : JsonRpcId} {k1 : JsonRpcId} {v1 : Nat}
    (h : (k1, v1) ∈ (dictPop m k).2) : (k1, v1) ∈ m := by
  induction m with
  | nil => simp [dictPop] at h
  | cons p rest ih =>
      rcases p with ⟨k2, v2⟩
      by_cases hk : k2 = k
      · subst hk
        simp [dictPop] at h
        exact List.mem_cons_of_mem _ h
      · simp [dictPop, hk] at h
        rcases h with h | h
        · rcases h with ⟨h1, h2⟩
          subst h1; subst h2
          exact List.mem_cons_self _ _
        · exact List.mem_cons_of_mem _ (ih h)

theorem dictSet_mem {m : CorrelationMap} {k : JsonRpcId} {v : Nat}
    {k1 : JsonRpcId} {v1 : Nat} (h : (k1, v1) ∈ dictSet m k v) :
    (k1 = k ∧ v1 = v) ∨ (k1, v1) ∈ m := by
  induction m with
  | nil =>
      simp [dictSet] at h
      exact Or.inl h
  | cons p rest ih =>
      rcases p with ⟨k2, v2⟩
      by_cases hk : k2 = k
      · subst hk
        simp [dictSet] at h
        rcases h with h | h
        · exact Or.inl h
        · exact Or.inr (List.mem_cons_of_mem _ h)
      · simp [dictSet, hk] at h
        rcases h with h | h
        · rcases h with ⟨h1, h2⟩
          subst h1; subst h2
          exact Or.inr (List.mem_cons_self _ _)
        · rcases ih h with h3 | h3
          · exact Or.inl h3
          · exact Or.inr (List.mem_cons_of_mem _ h3)

theorem foldl_preserves {σ ε : Type _} {P : σ → Prop} (step : σ → ε → σ)
    (hstep : ∀ s e, P s → P (step s e)) :
    ∀ (l : List ε) (s : σ), P s → P (l.foldl step s) := by
  intro l
  induction l with
  | nil => intro s hs; simpa using hs
  | cons e rest ih =>
      intro s hs
      simpa using ih (step s e) (hstep s e hs)

/-! ## The pipeline invariant -/

theorem Inv_initState : Inv initState := by
  refine ⟨rfl, ?_, ?_, ?_, ?_⟩ <;> intro i env h <;> simp [initState] at h

theorem processMessage_eq (tr : Transport) (st : PipelineState) (ev : InputEvent) :
    processMessage tr st ev =
      ({ store := st.store ++ [(stepFin tr st ev).1], cmap := (stepCorr tr st ev).1,
         seqCounter := st.seqCounter + 1 },
       (stepFin tr st ev).1, (stepFin tr st ev).2) := by
  unfold processMessage stepFin stepCorr stepWrapped
  cases ev.outcome <;> rfl

theorem stepFin_fields (tr : Transport) (st : PipelineState) (ev : InputEvent) :
    (stepFin tr st ev).1.id = (stepCorr tr st ev).2.id ∧
    (stepFin tr st ev).1.sequence = (stepCorr tr st ev).2.sequence ∧
    (stepFin tr st ev).1.method = (stepCorr tr st ev).2.method ∧
    (stepFin tr st ev).1.jsonrpc_id = (stepCorr tr st ev).2.jsonrpc_id ∧
    (stepFin tr st ev).1.correlated_id = (stepCorr tr st ev).2.correlated_id := by
  unfold stepFin
  cases ho : ev.outcome with
  | passthrough => simp
  | released a mr => exact finalizeReleased_fields (stepCorr tr st ev).2 ev.raw (some a) mr

theorem stepCorr_raw (tr : Transport) (st : PipelineState) (ev : InputEvent) :
    (stepCorr tr st ev).2.raw = ev.raw ∧ (stepCorr tr st ev).2.original_raw = none := by
  have h := correlateStep_snd_raw st.cmap (stepWrapped tr st ev) ev.raw
  exact ⟨h.1, h.2.1⟩

theorem stepFin_capturedRaw (tr : Transport) (st : PipelineState) (ev : InputEvent) :
    capturedRaw (stepFin tr st ev).1 = ev.raw := by
  obtain ⟨hraw, horig⟩ := stepCorr_raw tr st ev
  unfold stepFin
  cases ho : ev.outcome with
  | passthrough => simp [capturedRaw, hraw, horig]
  | released a mr =>
      exact finalizeReleased_capturedRaw (stepCorr tr st ev).2 ev.raw (some a) mr hraw horig

theorem is_request_extract_method {raw : JSONRPCMessage} (h : is_request raw = true) :
    extract_method raw ≠ none := by
  cases raw <;> simp [is_request] at h <;> simp [extract_method]

theorem is_notification_extract_id {raw : JSONRPCMessage}
    (h : is_notification raw = true) : extract_jsonrpc_id raw = none := by
  cases raw <;> simp [is_notification] at h <;> rfl

/-- Case analysis of `correlateStep`: the five possible branches with the
exact result in each. -/
theorem correlateStep_cases (cmap : CorrelationMap) (env : ProxyMessage)
    (raw : JSONRPCMessage) :
    (env.jsonrpc_id = none ∧ correlateStep cmap env raw = (cmap, env)) ∨
    (∃ jid, env.jsonrpc_id = some jid ∧ is_request raw = true ∧
      correlateStep cmap env raw = (dictSet cmap jid env.id, env)) ∨
    (∃ jid v, env.jsonrpc_id = some jid ∧ is_response raw = true ∧
      (dictPop cmap jid).1 = some v ∧
      correlateStep cmap env raw =
        ((dictPop cmap jid).2, { env with correlated_id := some v })) ∨
    (∃ jid, env.jsonrpc_id = some jid ∧
      (dictPop cmap jid).1 = none ∧
      correlateStep cmap env raw = ((dictPop cmap jid).2, env)) ∨
    (∃ jid, env.jsonrpc_id = some jid ∧
      correlateStep cmap env raw = (cmap, env)) := by
  unfold correlateStep
  cases hj : env.jsonrpc_id with
  | none => exact Or.inl ⟨rfl, rfl⟩
  | some jid =>
      by_cases hreq : is_request raw = true
      · refine Or.inr (Or.inl ⟨jid, rfl, hreq, ?_⟩)
        simp [hreq]
      · by_cases hresp : is_response raw = true
        · cases hp : (dictPop cmap jid).1 with
          | none =>
              refine Or.inr (Or.inr (Or.inr (Or.inl ⟨jid, rfl, hp, ?_⟩)))
              simp [hreq, hresp, hp]
          | some v =>
              refine Or.inr (Or.inr (Or.inl ⟨jid, v, rfl, hresp, hp, ?_⟩))
              simp [hreq, hresp, hp]
        · refine Or.inr (Or.inr (Or.inr (Or.inr ⟨jid, rfl, ?_⟩)))
          simp [hreq, hresp]

/-- Appending one envelope whose fields satisfy the step obligations
preserves the invariant.  This factors out all the indexed-lookup
bookkeeping of the preservation proof. -/
theorem Inv_extend (st : PipelineState) (hinv : Inv st)
    (newEnv : ProxyMessage) (newCmap : CorrelationMap)
    (hid : newEnv.id = st.store.length)
    (hseqv : newEnv.sequence = st.store.length)
    (hmapOk : ∀ (k : JsonRpcId) (v : Nat), (k, v) ∈ newCmap →
      (∃ env, st.store[v]? = some env ∧ env.method ≠ none ∧ env.jsonrpc_id = some k) ∨
      (v = st.store.length ∧ newEnv.method ≠ none ∧ newEnv.jsonrpc_id = some k))
    (hcorrOk : ∀ v, newEnv.correlated_id = some v →
      v < st.store.length ∧ ∃ envv, st.store[v]? = some envv ∧ envv.method ≠ none ∧
        envv.jsonrpc_id = newEnv.jsonrpc_id)
    (hnotifOk : is_notification (capturedRaw newEnv) = true →
      newEnv.correlated_id = none) :
    Inv { store := st.store ++ [newEnv], cmap := newCmap,
          seqCounter := st.seqCounter + 1 } := by
  obtain ⟨hseq, hids, hmap, hcorr, hnotif⟩ := hinv
  have hlook : ∀ i, (st.store ++ [newEnv])[i]? =
      if i < st.store.length then st.store[i]?
      else if i = st.store.length then some newEnv else none :=
    fun i => getElem?_append_single st.store newEnv i
  have hlift : ∀ (v : Nat) (env : ProxyMessage), st.store[v]? = some env →
      (st.store ++ [newEnv])[v]? = some env := by
    intro v env he
    have hvlt : v < st.store.length := by
      by_contra hge
      rw [List.getElem?_eq_none (Nat.le_of_not_lt hge)] at he
      exact Option.noConfusion he
    rw [hlook v, if_pos hvlt]
    exact he
  refine ⟨?_, ?_, ?_, ?_, ?_⟩
  · simp [hseq]
  · intro i env h
    simp only at h
    rw [hlook i] at h
    by_cases hi : i < st.store.length
    · rw [if_pos hi] at h
      exact hids i env h
    · rw [if_neg hi] at h
      by_cases hieq : i = st.store.length
      · rw [if_pos hieq] at h
        injection h with h
        subst h
        exact ⟨by rw [hid, hieq], by rw [hseqv, hieq]⟩
      · rw [if_neg hieq] at h
        exact Option.noConfusion h
  · intro k v hkv
    simp only at hkv
    rcases hmapOk k v hkv with ⟨env, he, hm, hk⟩ | ⟨hv, hm, hk⟩
    · exact ⟨env, hlift v env he, hm, hk⟩
    · refine ⟨newEnv, ?_, hm, hk⟩
      rw [hlook v, hv]
      simp
  · intro i env h v hv
    simp only at h
    rw [hlook i] at h
    by_cases hi : i < st.store.length
    · rw [if_pos hi] at h
      obtain ⟨hlt, envv, hev, hm, hjeq⟩ := hcorr i env h v hv
      exact ⟨hlt, envv, hlift v envv hev, hm, hjeq⟩
    · rw [if_neg hi] at h
      by_cases hieq : i = st.store.length
      · rw [if_pos hieq] at h
        injection h with h
        subst h
        obtain ⟨hlt, envv, hev, hm, hjeq⟩ := hcorrOk v hv
        exact ⟨by omega, envv, hlift v envv hev, hm, hjeq⟩
      · rw [if_neg hieq] at h
        exact Option.noConfusion h
  · intro i env h hnot
    simp only at h
    rw [hlook i] at h
    by_cases hi : i < st.store.length
    · rw [if_pos hi] at h
      exact hnotif i env h hnot
    · rw [if_neg hi] at h
      by_cases hieq : i = st.store.length
      · rw [if_pos hieq] at h
        injection h with h
        subst h
        exact hnotifOk hnot
      · rw [if_neg hieq] at h
        exact Option.noConfusion h

theorem Inv_processMessage (tr : Transport) (st : PipelineState) (ev : InputEvent)
    (hinv : Inv st) : Inv (processMessage tr st ev).1 := by
  have hinv2 := hinv
  obtain ⟨hseq, hids, hmap, hcorr, hnotif⟩ := hinv2
  obtain ⟨hfid, hfseq, hfmeth, hfjid, hfcorr⟩ := stepFin_fields tr st ev
  have hcap := stepFin_capturedRaw tr st ev
  have hw : stepWrapped tr st ev =
      wrapMessage st.seqCounter st.seqCounter ev.ts ev.direction tr ev.raw := rfl
  have hwid : (stepWrapped tr st ev).id = st.seqCounter := rfl
  have hwmeth : (stepWrapped tr st ev).method = extract_method ev.raw := rfl
  have hwjid : (stepWrapped tr st ev).jsonrpc_id = extract_jsonrpc_id ev.raw := rfl
  have hwcorr : (stepWrapped tr st ev).correlated_id = none := rfl
  rw [processMessage_eq]
  simp only
  rcases correlateStep_cases st.cmap (stepWrapped tr st ev) ev.raw with
    ⟨hj, hceq⟩ | ⟨jid, hj, hreq, hceq⟩ | ⟨jid, v, hj, hresp, hp, hceq⟩ |
    ⟨jid, hj, hp, hceq⟩ | ⟨jid, hj, hceq⟩
  all_goals (
    have hc1 : (stepCorr tr st ev).1 = _ := congrArg Prod.fst hceq
    have hc2 : (stepCorr tr st ev).2 = _ := congrArg Prod.snd hceq
    simp only at hc1 hc2)
  -- branch 1: no id — map and envelope unchanged
  · refine Inv_extend st hinv (stepFin tr st ev).1 (stepCorr tr st ev).1
      (by rw [hfid, hc2, hwid, hseq]) (by rw [hfseq, hc2]; exact hseq) ?_ ?_ ?_
    · intro k v hkv
      rw [hc1] at hkv
      exact Or.inl (hmap k v hkv)
    · intro v hv
      rw [hfcorr, hc2, hwcorr] at hv
      exact Option.noConfusion hv
    · intro _
      rw [hfcorr, hc2, hwcorr]
  -- branch 2: request — fresh binding for the new envelope
  · refine Inv_extend st hinv (stepFin tr st ev).1 (stepCorr tr st ev).1
      (by rw [hfid, hc2, hwid, hseq]) (by rw [hfseq, hc2]; exact hseq) ?_ ?_ ?_
    · intro k v hkv
      rw [hc1] at hkv
      rcases dictSet_mem hkv with ⟨hk1, hv1⟩ | hold
      · subst hk1
        subst hv1
        refine Or.inr ⟨by rw [hwid, hseq], ?_, ?_⟩
        · rw [hfmeth, hc2, hwmeth]
          exact is_request_extract_method hreq
        · rw [hfjid, hc2, hj]
      · exact Or.inl (hmap k v hold)
    · intro v hv
      rw [hfcorr, hc2, hwcorr] at hv
      exact Option.noConfusion hv
    · intro _
      rw [hfcorr, hc2, hwcorr]
  -- branch 3: response that popped an entry — correlated to the request
  · refine Inv_extend st hinv (stepFin tr st ev).1 (stepCorr tr st ev).1
      (by rw [hfid, hc2, hwid, hseq]) (by rw [hfseq, hc2]; exact hseq) ?_ ?_ ?_
    · intro k w hkw
      rw [hc1] at hkw
      exact Or.inl (hmap k w (dictPop_subset hkw))
    · intro w hw2
      rw [hfcorr, hc2] at hw2
      simp at hw2
      subst hw2
      obtain ⟨envv, hev, hm, hk⟩ := hmap jid v (dictPop_mem hp)
      have hvlt : v < st.store.length := by
        by_contra hge
        rw [List.getElem?_eq_none (Nat.le_of_not_lt hge)] at hev
        exact Option.noConfusion hev
      refine ⟨hvlt, envv, hev, hm, ?_⟩
      rw [hfjid, hc2]
      simp only
      rw [hj, hk]
    · intro hnot
      rw [hcap] at hnot
      -- a notification has no id, contradicting the popped-response branch
      exfalso
      have hidnone : extract_jsonrpc_id ev.raw = none := is_notification_extract_id hnot
      rw [hwjid, hidnone] at hj
      exact Option.noConfusion hj
  -- branch 4: response with no matching entry
  · refine Inv_extend st hinv (stepFin tr st ev).1 (stepCorr tr st ev).1
      (by rw [hfid, hc2, hwid, hseq]) (by rw [hfseq, hc2]; exact hseq) ?_ ?_ ?_
    · intro k w hkw
      rw [hc1] at hkw
      exact Or.inl (hmap k w (dictPop_subset hkw))
    · intro v hv
      rw [hfcorr, hc2, hwcorr] at hv
      exact Option.noConfusion hv
    · intro _
      rw [hfcorr, hc2, hwcorr]
  -- branch 5: id present but neither request nor response
  · refine Inv_extend st hinv (stepFin tr st ev).1 (stepCorr tr st ev).1
      (by rw [hfid, hc2, hwid, hseq]) (by rw [hfseq, hc2]; exact hseq) ?_ ?_ ?_
    · intro k v hkv
      rw [hc1] at hkv
      exact Or.inl (hmap k v hkv)
    · intro v hv
      rw [hfcorr, hc2, hwcorr] at hv
      exact Option.noConfusion hv
    · intro _
      rw [hfcorr, hc2, hwcorr]

/-- Every reachable pipeline state satisfies the invariant. -/
theorem Inv_runPipeline (tr : Transport) (events : List InputEvent) :
    Inv (runPipeline tr events) :=
  foldl_preserves _ (fun st ev => Inv_processMessage tr st ev) events initState Inv_initState

/-! ## Claim theorems -/

/-- C2: in every session-store state reachable by the forward loops of the pipeline, every envelope whose `correlated_id` equals some X has exactly one
earlier envelope in the session whose proxy id equals X, whose method is
non-null, and whose `jsonrpc_id` equals the `jsonrpc_id` of the correlated envelope; envelopes wrapping notifications (their captured payload)
never receive a `correlated_id`. -/
theorem correlation_correctness (tr : Transport) (events : List InputEvent)
    (i : Nat) (env : ProxyMessage)
    (hi : (runPipeline tr events).store[i]? = some env) :
    (∀ X, env.correlated_id = some X →
      (∃ j envj, j < i ∧ (runPipeline tr events).store[j]? = some envj ∧
        envj.id = X ∧ envj.method ≠ none ∧ envj.jsonrpc_id = env.jsonrpc_id) ∧
      (∀ (j1 j2 : Nat) (envj1 envj2 : ProxyMessage),
        (runPipeline tr events).store[j1]? = some envj1 →
        (runPipeline tr events).store[j2]? = some envj2 →
        envj1.id = X → envj2.id = X → j1 = j2)) ∧
    (is_notification (capturedRaw env) = true → env.correlated_id = none) := by
  obtain ⟨hseq, hids, hmap, hcorr, hnotif⟩ := Inv_runPipeline tr events
  refine ⟨?_, fun hnot => hnotif i env hi hnot⟩
  intro X hX
  obtain ⟨hlt, envv, hev, hm, hjeq⟩ := hcorr i env hi X hX
  have hvid : envv.id = X := (hids X envv hev).1
  refine ⟨⟨X, envv, hlt, hev, hvid, hm, hjeq⟩, ?_⟩
  intro j1 j2 envj1 envj2 h1 h2 hid1 hid2
  have e1 : envj1.id = j1 := (hids j1 envj1 h1).1
  have e2 : envj2.id = j2 := (hids j2 envj2 h2).1
  rw [e1] at hid1
  rw [e2] at hid2
  rw [hid1, hid2]

/-- Witness for C2: on the concrete trace `exEvents` the response envelope
(index 1) correlates to the request envelope (index 0). -/
theorem correlation_correctness_witness :
    (runPipeline Transport.stdio exEvents).store[1]? = some exRespEnv ∧
    ∃ j envj, j < 1 ∧ (runPipeline Transport.stdio exEvents).store[j]? = some envj ∧
      envj.id = 0 ∧ envj.method ≠ none ∧ envj.jsonrpc_id = exRespEnv.jsonrpc_id := by
  have hlook : (runPipeline Transport.stdio exEvents).store[1]? = some exRespEnv := by
    rfl
  have h := correlation_correctness Transport.stdio exEvents 1 exRespEnv hlook
  exact ⟨hlook, (h.1 0 rfl).1⟩

/-- C5: for any two envelopes captured by a single pipeline run, capture
order (in either direction, both loops drawing from the shared counter)
implies strictly increasing sequence numbers, and sequences are unique
within the session. -/
theorem monotonic_sequence (tr : Transport) (events : List InputEvent)
    (i j : Nat) (envi envj : ProxyMessage)
    (hi : (runPipeline tr events).store[i]? = some envi)
    (hj : (runPipeline tr events).store[j]? = some envj) :
    (i < j → envi.sequence < envj.sequence) ∧
    (envi.sequence = envj.sequence → i = j) := by
  obtain ⟨hseq, hids, hmap, hcorr, hnotif⟩ := Inv_runPipeline tr events
  have e1 : envi.sequence = i := (hids i envi hi).2
  have e2 : envj.sequence = j := (hids j envj hj).2
  constructor
  · intro hij
    rw [e1, e2]
    exact hij
  · intro heq
    rw [e1, e2] at heq
    exact heq

/-- Witness for C5 on the concrete trace `exEvents`. -/
theorem monotonic_sequence_witness :
    (runPipeline Transport.stdio exEvents).store[0]? = some exReqEnv ∧
    (runPipeline Transport.stdio exEvents).store[1]? = some exRespEnv ∧
    exReqEnv.sequence < exRespEnv.sequence := by
  have h0 : (runPipeline Transport.stdio exEvents).store[0]? = some exReqEnv := by rfl
  have h1 : (runPipeline Transport.stdio exEvents).store[1]? = some exRespEnv := by rfl
  exact ⟨h0, h1,
    (monotonic_sequence Transport.stdio exEvents 0 1 exReqEnv exRespEnv h0 h1).1
      (by decide)⟩

/-- C1: with the intercept engine in intercept mode, every envelope read
from a source adapter is held before forwarding — the iteration parks in
the `waiting` state of the fresh held record, a state in which nothing has
been written (`IterationState.completed` is the only state carrying a
write, and only `resumeStage`, the post-release code, produces it).  On
release with drop, no write happens and the envelope stays in the session
store; with forward, the payload written equals the captured raw; with
modify carrying payload m, the payload written equals m, the `original_raw` of the envelope equals the captured raw, and its modified flag is true. -/
theorem intercept_rendezvous (e : InterceptEngine) (tr : Transport)
    (st : PipelineState) (d : Direction) (ts : Nat) (raw : JSONRPCMessage)
    (hmode : e.mode = InterceptMode.intercept) :
    (∀ env : ProxyMessage, interceptStage e env raw =
      ((e.hold env).1, IterationState.waiting (e.hold env).2)) ∧
    (∀ mr, (processMessage tr st ⟨d, ts, raw, ReleaseOutcome.released InterceptAction.drop mr⟩).2.2 = none ∧
      (processMessage tr st ⟨d, ts, raw, ReleaseOutcome.released InterceptAction.drop mr⟩).1.store =
      st.store ++ [(processMessage tr st ⟨d, ts, raw, ReleaseOutcome.released InterceptAction.drop mr⟩).2.1]) ∧
    (∀ mr, (processMessage tr st ⟨d, ts, raw, ReleaseOutcome.released InterceptAction.forward mr⟩).2.2 = some raw) ∧
    (∀ m, (processMessage tr st ⟨d, ts, raw, ReleaseOutcome.released InterceptAction.modify (some m)⟩).2.2 = some m ∧
      (processMessage tr st ⟨d, ts, raw, ReleaseOutcome.released InterceptAction.modify (some m)⟩).2.1.original_raw
        = some raw ∧
      (processMessage tr st ⟨d, ts, raw, ReleaseOutcome.released InterceptAction.modify (some m)⟩).2.1.modified
        = true) := by
  refine ⟨?_, ?_, ?_, ?_⟩
  · intro env
    unfold interceptStage InterceptEngine.should_hold
    rw [hmode]
    rfl
  · intro mr
    rw [processMessage_eq]
    exact ⟨by unfold stepFin; simp [finalizeReleased], rfl⟩
  · intro mr
    rw [processMessage_eq]
    unfold stepFin
    simp [finalizeReleased]
  · intro m
    rw [processMessage_eq]
    simp only
    have hraw := (stepCorr_raw tr st
      ⟨d, ts, raw, ReleaseOutcome.released InterceptAction.modify (some m)⟩).1
    unfold stepFin
    simp [finalizeReleased, hraw]

/-- Witness for C1 at a concrete engine and message: forward-release
writes the captured raw. -/
theorem intercept_rendezvous_witness :
    (processMessage Transport.stdio initState
      ⟨Direction.client_to_server, 0, exReqRaw,
       ReleaseOutcome.released InterceptAction.forward none⟩).2.2 =
      some exReqRaw :=
  (intercept_rendezvous { mode := InterceptMode.intercept, held := [] }
    Transport.stdio initState Direction.client_to_server 0 exReqRaw rfl).2.2.1 none

/-- C10: a held message released with action modify but a null modified
payload is forwarded unchanged — the payload written equals the captured
raw, the modified flag of the envelope stays false and its `original_raw` stays
null. -/
theorem modify_null_payload_unchanged (tr : Transport) (st : PipelineState)
    (d : Direction) (ts : Nat) (raw : JSONRPCMessage) :
    (processMessage tr st ⟨d, ts, raw, ReleaseOutcome.released InterceptAction.modify none⟩).2.2 = some raw ∧
    (processMessage tr st ⟨d, ts, raw, ReleaseOutcome.released InterceptAction.modify none⟩).2.1.modified
      = false ∧
    (processMessage tr st ⟨d, ts, raw, ReleaseOutcome.released InterceptAction.modify none⟩).2.1.original_raw
      = none := by
  rw [processMessage_eq]
  simp only
  have hfields := correlateStep_snd_raw st.cmap
    (stepWrapped tr st ⟨d, ts, raw, ReleaseOutcome.released InterceptAction.modify none⟩) raw
  have hmod : (stepCorr tr st
      ⟨d, ts, raw, ReleaseOutcome.released InterceptAction.modify none⟩).2.modified = false :=
    hfields.2.2.1
  have horig : (stepCorr tr st
      ⟨d, ts, raw, ReleaseOutcome.released InterceptAction.modify none⟩).2.original_raw
      = none := hfields.2.1
  unfold stepFin
  simp [finalizeReleased, hmod, horig]

theorem set_mode_fold (toProcess : List HeldMessage) (e1 : InterceptEngine)
    (acc : List HeldMessage) :
    toProcess.foldl
      (fun acc h =>
        let r := InterceptEngine.release acc.1 h InterceptAction.forward none
        (r.1, acc.2 ++ [r.2]))
      (e1, acc)
    = ({ mode := e1.mode, held := toProcess.foldl (fun c h => c.erase h) e1.held },
       acc ++ toProcess.map stampForward) := by
  induction toProcess generalizing e1 acc with
  | nil => simp
  | cons h t ih =>
      exact Eq.trans
        (ih { mode := e1.mode, held := e1.held.erase h } (acc ++ [stampForward h]))
        (by simp [List.foldl_cons])

theorem foldl_erase_self {α : Type _} [DecidableEq α] (l : List α) :
    l.foldl (fun c h => c.erase h) l = [] := by
  induction l with
  | nil => rfl
  | cons h t ih =>
      rw [List.foldl_cons, List.erase_cons_head]
      exact ih

/-- C6: switching the intercept engine to passthrough releases every
currently held record with action forward (signalling each rendezvous),
leaves the held list empty, and every record that was held at the switch is
then forwarded by its waiting forward loop (its resumption writes its
captured raw). -/
theorem set_mode_passthrough_drains (e : InterceptEngine) :
    (e.set_mode InterceptMode.passthrough).1.held = [] ∧
    (e.set_mode InterceptMode.passthrough).2 = e.held.map stampForward ∧
    (∀ h2, h2 ∈ (e.set_mode InterceptMode.passthrough).2 →
      h2.action = some InterceptAction.forward ∧ h2.releaseSet = true ∧
      resumeStage h2 h2.proxy_message.raw =
        IterationState.completed h2.proxy_message (some h2.proxy_message.raw)) := by
  have hsm : e.set_mode InterceptMode.passthrough =
      ({ mode := InterceptMode.passthrough, held := [] }, e.held.map stampForward) := by
    unfold InterceptEngine.set_mode
    rw [if_pos (by decide)]
    rw [set_mode_fold]
    simp [foldl_erase_self]
  refine ⟨by rw [hsm], by rw [hsm], ?_⟩
  intro h2 hmem
  rw [hsm] at hmem
  simp only at hmem
  obtain ⟨h0, _, rfl⟩ := List.mem_map.1 hmem
  refine ⟨rfl, rfl, ?_⟩
  unfold resumeStage stampForward finalizeReleased
  simp

/-- Witness for C6: a concrete engine holding two messages is drained. -/
theorem set_mode_passthrough_drains_witness :
    (InterceptEngine.set_mode
      { mode := InterceptMode.intercept,
        held := [{ proxy_message := exReqEnv, releaseSet := false, action := none,
                   modified_raw := none },
                 { proxy_message := exRespEnv, releaseSet := false, action := none,
                   modified_raw := none }] }
      InterceptMode.passthrough).1.held = [] ∧
    (InterceptEngine.set_mode
      { mode := InterceptMode.intercept,
        held := [{ proxy_message := exReqEnv, releaseSet := false, action := none,
                   modified_raw := none },
                 { proxy_message := exRespEnv, releaseSet := false, action := none,
                   modified_raw := none }] }
      InterceptMode.passthrough).2 =
      [stampForward { proxy_message := exReqEnv, releaseSet := false, action := none,
                      modified_raw := none },
       stampForward { proxy_message := exRespEnv, releaseSet := false, action := none,
                      modified_raw := none }] ∧
    (stampForward ⟨exReqEnv, false, none, none⟩).action = some InterceptAction.forward ∧
    resumeStage (stampForward ⟨exReqEnv, false, none, none⟩) exReqEnv.raw =
      IterationState.completed exReqEnv (some exReqEnv.raw) := by
  have h := set_mode_passthrough_drains
    { mode := InterceptMode.intercept,
      held := [{ proxy_message := exReqEnv, releaseSet := false, action := none,
                 modified_raw := none },
               { proxy_message := exRespEnv, releaseSet := false, action := none,
                 modified_raw := none }] }
  have hmem := h.2.2 (stampForward ⟨exReqEnv, false, none, none⟩)
    (by rw [h.2.1]; exact List.mem_cons_self _ _)
  exact ⟨h.1, h.2.1, hmem.1, hmem.2.2⟩

theorem validate_dump (m : JSONRPCMessage) : validateMessage (dumpMessage m) = some m := by
  cases m <;> rfl

theorem direction_value_roundtrip (d : Direction) : Direction.ofValue d.value = some d := by
  cases d <;> rfl

theorem transport_value_roundtrip (t : Transport) : Transport.ofValue t.value = some t := by
  cases t <;> rfl

theorem loadEntry_dumpEntry (m : ProxyMessage) : loadEntry (dumpEntry m) = some m := by
  unfold loadEntry dumpEntry
  rw [validate_dump]
  cases ho : m.original_raw with
  | none =>
      simp only [Option.map]
      rw [direction_value_roundtrip, transport_value_roundtrip]
      simp only [fromisoformat, isoformat]
      rw [← ho]
      rfl
  | some p =>
      simp only [Option.map, validate_dump]
      rw [direction_value_roundtrip, transport_value_roundtrip]
      simp only [Option.map_some, fromisoformat, isoformat]
      rw [← ho]
      rfl

theorem loadEntries_dump (l : List ProxyMessage) :
    loadEntries (l.map dumpEntry) = some l := by
  induction l with
  | nil => rfl
  | cons m rest ih =>
      simp only [List.map_cons, loadEntries, loadEntry_dumpEntry, ih]
      rfl

theorem foldl_append_acc (b : SessionStore) (l : List ProxyMessage) :
    l.foldl SessionStore.append b =
      { b with messages := b.messages ++ l,
               index := b.index ++ l.map (fun m => (m.id, m)) } := by
  induction l generalizing b with
  | nil => simp
  | cons m rest ih =>
      rw [List.foldl_cons, ih]
      simp [SessionStore.append]

/-- C3: saving a session built by appending envelopes to a fresh
`SessionStore` and loading it back from the same path yields the very
session: same session id, transport, target descriptor and metadata, and
envelopes equal field-by-field in the same order (timestamps exactly, hence
to millisecond precision). -/
theorem session_roundtrip (sid : String) (tr : Transport)
    (cmd url : Option String) (meta : List (String × String)) (t0 : Nat)
    (msgs : List ProxyMessage) (fs : Fs) (path : String) :
    SessionStore.load
      (((msgs.foldl SessionStore.append
          (SessionStore.create sid tr cmd url meta t0)).save fs path false none).1)
      path
    = some (msgs.foldl SessionStore.append (SessionStore.create sid tr cmd url meta t0)) := by
  have hmsgs : (msgs.foldl SessionStore.append
      (SessionStore.create sid tr cmd url meta t0)).messages = msgs := by
    rw [foldl_append_acc]
    simp [SessionStore.create]
  unfold SessionStore.save writeText SessionStore.load updateFs
  simp only [if_false, Bool.false_eq_true, if_pos rfl]
  unfold SessionStore.ofJson ProxySession.model_validate_json ProxySession.model_dump_json
  unfold SessionStore.to_proxy_session
  simp only [hmsgs, loadEntries_dump, Option.some_bind]
  rw [foldl_append_acc]
  simp [loadEntries_dump, foldl_append_acc, SessionStore.create, fromisoformat, isoformat]

/-- Witness for C3 at a concrete one-message store and filesystem. -/
theorem session_roundtrip_witness :
    SessionStore.load
      ((([exReqEnv].foldl SessionStore.append
          (SessionStore.create "s1" Transport.stdio (some "python server.py") none
            [("note", "t")] 42)).save (fun _ => none) "out/session.json" false none).1)
      "out/session.json"
    = some ([exReqEnv].foldl SessionStore.append
        (SessionStore.create "s1" Transport.stdio (some "python server.py") none
          [("note", "t")] 42)) :=
  session_roundtrip "s1" Transport.stdio (some "python server.py") none
    [("note", "t")] 42 [exReqEnv] (fun _ => none) "out/session.json"

/-- C4 counterexample: `save` writes directly to the target with
`Path.write_text` — no temporary file, no rename — so a failure during the
write signals an io-error but does NOT leave the previously existing file
unchanged: at this concrete input the old complete document is replaced by
a truncated write. -/
theorem save_not_atomic_counterexample :
    (exStoreEmpty.save exFs0 "session.json" false (some 0)).2 = false ∧
    exFs0 "session.json" = some (FileContent.complete exOldDoc) ∧
    (exStoreEmpty.save exFs0 "session.json" false (some 0)).1 "session.json" ≠
      some (FileContent.complete exOldDoc) := by
  refine ⟨rfl, rfl, ?_⟩
  intro h
  simp [SessionStore.save, writeText, updateFs, exStoreEmpty] at h

/-- C4 amended: `save(path)` creates parent directories and writes the
encoded session document directly to `path` (no temporary file or rename).
A failure before the write begins (directory creation) signals an io-error
and leaves any existing file unchanged; a successful save leaves the
complete document at `path`; a failure during the write itself signals an
io-error but may leave the file truncated. -/
theorem save_direct_write (st : SessionStore) (fs : Fs) (path : String)
    (mkdirFail : Bool) (failAt : Option Nat) :
    (mkdirFail = true → (st.save fs path mkdirFail failAt).2 = false ∧
      (st.save fs path mkdirFail failAt).1 = fs) ∧
    (mkdirFail = false → failAt = none →
      (st.save fs path mkdirFail failAt).2 = true ∧
      (st.save fs path mkdirFail failAt).1 path =
        some (FileContent.complete (st.to_proxy_session.model_dump_json))) ∧
    (mkdirFail = false → ∀ k, failAt = some k →
      (st.save fs path mkdirFail failAt).2 = false ∧
      (st.save fs path mkdirFail failAt).1 path =
        some (FileContent.truncated (st.to_proxy_session.model_dump_json) k)) := by
  refine ⟨?_, ?_, ?_⟩
  · intro hm
    subst hm
    exact ⟨rfl, rfl⟩
  · intro hm hf
    subst hm
    subst hf
    exact ⟨rfl, by simp [SessionStore.save, writeText, updateFs]⟩
  · intro hm k hf
    subst hm
    subst hf
    exact ⟨rfl, by simp [SessionStore.save, writeText, updateFs]⟩

/-- Witness for the amended C4 at a concrete store and filesystem. -/
theorem save_direct_write_witness :
    (exStoreEmpty.save exFs0 "session.json" false none).2 = true ∧
    (exStoreEmpty.save exFs0 "session.json" false none).1 "session.json" =
      some (FileContent.complete (exStoreEmpty.to_proxy_session.model_dump_json)) :=
  (save_direct_write exStoreEmpty exFs0 "session.json" false none).2.1 rfl rfl

/-- C9 counterexample: a store loaded from disk is NOT frozen — `append`
has no freshness guard (`load` itself builds the store by appending), so
appending to a loaded store succeeds and stores the message, exactly as on
a fresh store. -/
theorem loaded_session_append_counterexample :
    SessionStore.load ((exStoreEmpty.save exFs0 "s2.json" false none).1) "s2.json" =
      some exStoreEmpty ∧
    (exStoreEmpty.append exReqEnv).messages = exStoreEmpty.messages ++ [exReqEnv] ∧
    (exStoreEmpty.append exReqEnv).messages ≠ exStoreEmpty.messages := by
  refine ⟨?_, rfl, by decide⟩
  rfl

/-- C9 amended: `SessionStore.append` places no restriction on the store it
extends — it succeeds on every store, including one returned by
`SessionStore.load`, appending the message to both the list and the index. -/
theorem append_unrestricted (fs : Fs) (path : String) (ls : SessionStore)
    (m : ProxyMessage) (_hload : SessionStore.load fs path = some ls) :
    (ls.append m).messages = ls.messages ++ [m] ∧
    (ls.append m).index = ls.index ++ [(m.id, m)] :=
  ⟨rfl, rfl⟩

/-- Witness for the amended C9 at a concrete loaded store. -/
theorem append_unrestricted_witness :
    ((exStoreEmpty.append exReqEnv).messages = exStoreEmpty.messages ++ [exReqEnv]) ∧
    ((exStoreEmpty.append exReqEnv).index = exStoreEmpty.index ++ [(exReqEnv.id, exReqEnv)]) :=
  append_unrestricted ((exStoreEmpty.save exFs0 "s2.json" false none).1) "s2.json"
    exStoreEmpty exReqEnv rfl

theorem replaySingle_original (m : ProxyMessage) (w : WriteResult) (wr : WaitResult)
    (t : String) (e : Nat) : (replaySingle m w wr t e).original_request = m := by
  cases w with
  | failed exc => rfl
  | ok =>
      by_cases hn : is_notification m.raw
      · simp [replaySingle, hn]
      · cases wr <;> simp [replaySingle, hn]

theorem replayLoop_getElem (writeO : Nat → WriteResult) (waitO : Nat → WaitResult)
    (durO : Nat → Nat) (timeoutRepr : String) (l : List ProxyMessage) (k : Nat) :
    (replayLoop writeO waitO durO timeoutRepr k l).length = l.length ∧
    ∀ (i : Nat) (r : ReplayResult),
      (replayLoop writeO waitO durO timeoutRepr k l)[i]? = some r →
      ∃ m, l[i]? = some m ∧
        r = replaySingle m (writeO (k + i)) (waitO (k + i)) timeoutRepr (durO (k + i)) := by
  induction l generalizing k with
  | nil =>
      refine ⟨rfl, ?_⟩
      intro i r hr
      simp [replayLoop] at hr
  | cons m rest ih =>
      obtain ⟨ihlen, ihspec⟩ := ih (k + 1)
      refine ⟨by simp [replayLoop, ihlen], ?_⟩
      intro i r hr
      cases i with
      | zero =>
          rw [replayLoop, List.getElem?_cons_zero] at hr
          injection hr with hr
          refine ⟨m, by simp, ?_⟩
          rw [← hr]
          simp
      | succ i2 =>
          rw [replayLoop, List.getElem?_cons_succ] at hr
          obtain ⟨m2, hm2, hr2⟩ := ihspec i2 r hr
          refine ⟨m2, by simpa using hm2, ?_⟩
          rw [hr2]
          have harith : k + 1 + i2 = k + (i2 + 1) := by omega
          rw [harith]

/-- C7: every per-message replay failure is returned as a value in the
`ReplayResult`, never raised (the loop is a total function): a write
failure yields `error = "Write failed: <exc>"` with a null response; a
timeout while waiting for the matching response yields
`error = "Timeout after <t>s"` with a null response; and in all cases
replay continues, producing exactly one result per surviving message in
the original order. -/
theorem replay_errors_are_values (messages : List ProxyMessage)
    (writeO : Nat → WriteResult) (waitO : Nat → WaitResult) (durO : Nat → Nat)
    (timeoutRepr : String) (auto : Bool) :
    (replayMessages messages auto writeO waitO durO timeoutRepr).length =
      (c2sFilter messages).length ∧
    ∀ (i : Nat) (r : ReplayResult),
      (replayMessages messages auto writeO waitO durO timeoutRepr)[i]? = some r →
      ∃ m, (c2sFilter messages)[i]? = some m ∧ r.original_request = m ∧
        (∀ e, writeO i = WriteResult.failed e →
          r.error = some ("Write failed: " ++ e) ∧ r.response = none) ∧
        (writeO i = WriteResult.ok → is_notification m.raw = false →
          waitO i = WaitResult.timedOut →
          r.error = some ("Timeout after " ++ timeoutRepr ++ "s") ∧
          r.response = none) := by
  obtain ⟨hlen, hspec⟩ :=
    replayLoop_getElem writeO waitO durO timeoutRepr (c2sFilter messages) 0
  refine ⟨hlen, ?_⟩
  intro i r hr
  obtain ⟨m, hm, hr2⟩ := hspec i r hr
  simp only [Nat.zero_add] at hr2
  subst hr2
  refine ⟨m, hm, replaySingle_original m _ _ _ _, ?_, ?_⟩
  · intro e he
    rw [he]
    exact ⟨rfl, rfl⟩
  · intro hw hn hto
    rw [hw, hto]
    simp [replaySingle, hn]

/-- Witness for C7: replaying one request against an adapter that never
responds yields the timeout error value. -/
theorem replay_errors_are_values_witness :
    ∃ r, (replayMessages [exReqEnv] true (fun _ => WriteResult.ok)
        (fun _ => WaitResult.timedOut) (fun _ => 3) "10.0")[0]? = some r ∧
      r.error = some "Timeout after 10.0s" ∧ r.response = none := by
  have h := replay_errors_are_values [exReqEnv] (fun _ => WriteResult.ok)
    (fun _ => WaitResult.timedOut) (fun _ => 3) "10.0" true
  obtain ⟨m, hm, horig, hwf, hto⟩ :=
    h.2 0 (replaySingle exReqEnv WriteResult.ok WaitResult.timedOut "10.0" 3) rfl
  have hmeq : m = exReqEnv := by
    rw [show (c2sFilter [exReqEnv])[0]? = some exReqEnv from rfl] at hm
    exact (Option.some.inj hm).symm
  obtain ⟨he, hrn⟩ := hto rfl (by rw [hmeq]; rfl) rfl
  exact ⟨_, rfl, he, hrn⟩

/-- C8 counterexample: with `auto_handshake` set and an empty surviving
client-to-server list, the code still performs the synthetic handshake
(`not c2s_messages or ...` is true on the empty list), although no first
surviving message with a method other than "initialize" exists — the
if-and-only-if of the claim fails at the empty message list. -/
theorem auto_handshake_empty_counterexample :
    needsHandshake true (c2sFilter ([] : List ProxyMessage)) = true ∧
    ¬ ∃ m : ProxyMessage, (c2sFilter ([] : List ProxyMessage)).head? = some m ∧
      m.method ≠ some "initialize" := by
  refine ⟨rfl, ?_⟩
  rintro ⟨m, hm, _⟩
  simp [c2sFilter] at hm

/-- C8 amended: with `auto_handshake` true, the synthetic handshake is
performed if and only if the filtered client-to-server list is empty or its
method of its first message is not "initialize"; when performed, the adapter
sees the `initialize` request — sentinel id `"__handshake__"`, minimal
client-capabilities payload — then (after the best-effort bounded wait for
its response, whose outcome does not change the writes) the
`notifications/initialized` notification, and both strictly before the
write of the first replayed message. -/
theorem replay_auto_handshake (messages : List ProxyMessage) (w : HandshakeWait) :
    (needsHandshake true (c2sFilter messages) = true ↔
      c2sFilter messages = [] ∨
      ∃ m rest, c2sFilter messages = m :: rest ∧ m.method ≠ some "initialize") ∧
    (needsHandshake true (c2sFilter messages) = true →
      replayWriteTrace messages true w =
        handshakeInitRequest :: initializedNotification ::
          (c2sFilter messages).map (fun m => m.raw)) ∧
    (needsHandshake true (c2sFilter messages) = false →
      replayWriteTrace messages true w = (c2sFilter messages).map (fun m => m.raw)) ∧
    handshakeInitRequest = JSONRPCMessage.request (JsonRpcId.str handshakeId)
      "initialize"
      (some (ParamsDoc.init ⟨"2024-11-05", ⟨"mcp-proxy-replay", "0.1.0"⟩⟩)) ∧
    (∀ w2, sendHandshakeWrites w2 = [handshakeInitRequest, initializedNotification]) := by
  refine ⟨?_, ?_, ?_, rfl, fun w2 => by cases w2 <;> rfl⟩
  · cases hc : c2sFilter messages with
    | nil => simp [needsHandshake]
    | cons m rest =>
        simp only [needsHandshake, Bool.true_and]
        constructor
        · intro h
          exact Or.inr ⟨m, rest, rfl, by simpa [bne_iff_ne] using h⟩
        · rintro (h | ⟨m2, rest2, heq, hne⟩)
          · exact List.noConfusion h
          · injection heq with h1 h2
            subst h1
            simpa [bne_iff_ne] using hne
  · intro h
    simp only [replayWriteTrace, h, if_true]
    cases w <;> rfl
  · intro h
    simp [replayWriteTrace, h]

/-- Witness for the amended C8: replaying one `tools/list` request performs
the handshake first, then writes the replayed request. -/
theorem replay_auto_handshake_witness :
    replayWriteTrace [exReqEnv] true HandshakeWait.timedOut =
      handshakeInitRequest :: initializedNotification :: [exReqRaw] := by
  have h := (replay_auto_handshake [exReqEnv] HandshakeWait.timedOut).2.1 rfl
  exact h

end MCPProxy
